import Mathlib

/-!
Verification of the session + authentication subsystem of the koa-blocks
repository, shallowly embedded in Lean.

JavaScript `Map` objects are modelled as association lists (`alGet`,
`alSet`, `alDelete`): `Map.set` replaces an existing entry in place or
appends a new one, `Map.get` returns the first (unique) binding, and
`Map.delete` removes the binding.  `Map` keys are unique, so removing
every occurrence coincides with removing the single entry.

External collaborators are passed in as explicit parameters: the Node
`Buffer` conversions as a `BufferCodec`, `crypto.pbkdf2` as a `Kdf`
function, `Date` values as integer millisecond timestamps, and the
session store behind the middleware as a response function plus an
emitted operation trace.
-/

namespace KoaBlocks

/-- JS `Map.prototype.get`, on an association-list representation. -/
def alGet {β : Type} : List (String × β) → String → Option β
  | [], _ => none
  | (k, v) :: rest, key => if k = key then some v else alGet rest key

/-- JS `Map.prototype.set`: replace the existing entry in place, else append. -/
def alSet {β : Type} : List (String × β) → String → β → List (String × β)
  | [], key, v => [(key, v)]
  | (k, w) :: rest, key, v =>
    if k = key then (key, v) :: rest else (k, w) :: alSet rest key v

/-- JS `Map.prototype.delete` (keys are unique in a `Map`). -/
def alDelete {β : Type} : List (String × β) → String → List (String × β)
  | [], _ => []
  | (k, w) :: rest, key =>
    if k = key then alDelete rest key else (k, w) :: alDelete rest key

/-- Session data: the JS `Map<string, string>` exposed to handlers. -/
abbrev SessMap := List (String × String)

/-- `mapGet` on the session map (`Map.prototype.get`). -/
abbrev mapGet (m : SessMap) (k : String) : Option String := alGet m k

/-- `mapSet` on the session map (`Map.prototype.set`). -/
abbrev mapSet (m : SessMap) (k v : String) : SessMap := alSet m k v

/-! ## MemoryStore (Decorator.ts lines 501-533)

`interface StoreData { expires: Date; data: Map<string, string>; }`
`Date` values are compared through `getTime()`, so they are modelled as
integer millisecond timestamps. -/

structure StoreData where
  expires : Int
  data : SessMap
deriving DecidableEq

structure MemoryStore where
  data : List (String × StoreData)
deriving DecidableEq

/-- `MemoryStore.get`: the current time `now` stands for
`(new Date()).getTime()`.  Returns the (possibly mutated) store together
with the returned value. -/
def MemoryStore.get (s : MemoryStore) (key : String) (now : Int) :
    MemoryStore × Option SessMap :=
  match alGet s.data key with
  | none => (s, none)
  | some d =>
    if d.expires < now then (⟨alDelete s.data key⟩, none)
    else (s, some d.data)

/-- `MemoryStore.set`: a no-op when the key is unknown; otherwise mutates
the stored record's `data` field in place (its `expires` is untouched). -/
def MemoryStore.set (s : MemoryStore) (key : String) (d : SessMap) : MemoryStore :=
  match alGet s.data key with
  | none => s
  | some rec0 => ⟨alSet s.data key { rec0 with data := d }⟩

/-- `MemoryStore.create`: inserts a new record, overwriting any existing
record under the same key. -/
def MemoryStore.create (s : MemoryStore) (key : String) (d : SessMap) (expires : Int) :
    MemoryStore :=
  ⟨alSet s.data key { expires := expires, data := d }⟩

/-- One store operation, for stating multi-step properties of the store. -/
inductive MSOp
  | get (key : String) (now : Int)
  | set (key : String) (d : SessMap)
  | create (key : String) (d : SessMap) (expires : Int)
deriving DecidableEq

/-- The store reached after executing one operation. -/
def MemoryStore.run (s : MemoryStore) : MSOp → MemoryStore
  | .get key now => (s.get key now).1
  | .set key d => s.set key d
  | .create key d expires => s.create key d expires

/-- The store reached after executing a sequence of operations. -/
def msRun (s : MemoryStore) (ops : List MSOp) : MemoryStore :=
  ops.foldl MemoryStore.run s

/-- Whether an operation is a `create` on the given key. -/
def opCreatesKey (op : MSOp) (k : String) : Bool :=
  match op with
  | .create key _ _ => key == k
  | _ => false

/-! ## String-level infrastructure for the credential string format

The credential string is split by the regular expression
`^([^$]+)\$([^$]+)\$([^$]+)\$([^$]+)\$([^$]+)\$([^$]+)\$([^$]+)$`:
seven nonempty fields separated by the dollar character.  `splitDollar`
splits a character list at every dollar; the regex matches exactly when
the split has seven parts, all nonempty. -/

/-- The dollar character (written via its code point 36). -/
def dollarChar : Char := Char.ofNat 36

/-- Split a character list at every dollar character. -/
def splitDollar : List Char → List (List Char)
  | [] => [[]]
  | c :: rest =>
    let r := splitDollar rest
    if c = dollarChar then [] :: r
    else
      match r with
      | [] => [[c]]
      | f :: fs => (c :: f) :: fs

/-- Value of a decimal digit string (JS `Number` on an all-digit string). -/
def digitsVal (cs : List Char) : Nat :=
  cs.foldl (fun a c => a * 10 + (c.toNat - 48)) 0

/-- JS `Number(...)` restricted to nonempty all-decimal-digit strings;
`none` models `NaN`/non-integers. -/
def jsNumberNat (cs : List Char) : Option Nat :=
  if cs ≠ [] ∧ cs.all (fun c => c.isDigit) then some (digitsVal cs) else none

/-- Fuel-driven digit rendering (structural recursion, so that concrete
instances reduce inside the kernel); `fuel > n` suffices. -/
def natToDecimalFuel : Nat → Nat → List Char
  | 0, _ => []
  | fuel + 1, n =>
    if n < 10 then [Char.ofNat (48 + n)]
    else natToDecimalFuel fuel (n / 10) ++ [Char.ofNat (48 + n % 10)]

/-- JS number-to-string for a nonnegative integer: its decimal digits
(this is what the template literal in the encoder produces). -/
def natToDecimal (n : Nat) : List Char := natToDecimalFuel (n + 1) n

/-! ## Node `Buffer` hex codec

`Buffer.from(s, "hex")` parses pairs of hex digits and silently stops at
the first character pair that is not valid hex (it never throws);
`buf.toString("hex")` emits two lowercase hex digits per byte. -/

/-- Lowercase hex digit for a value below 16. -/
def hexDigitChar (n : Nat) : Char :=
  if n < 10 then Char.ofNat (48 + n) else Char.ofNat (87 + n)

/-- Value of a hex digit character, `none` for non-hex characters. -/
def hexDigitVal (c : Char) : Option Nat :=
  if 48 ≤ c.toNat ∧ c.toNat ≤ 57 then some (c.toNat - 48)
  else if 97 ≤ c.toNat ∧ c.toNat ≤ 102 then some (c.toNat - 87)
  else if 65 ≤ c.toNat ∧ c.toNat ≤ 70 then some (c.toNat - 55)
  else none

/-- `buf.toString("hex")`. -/
def hexEncode : List Nat → List Char
  | [] => []
  | b :: bs => hexDigitChar (b / 16) :: hexDigitChar (b % 16) :: hexEncode bs

/-- `Buffer.from(s, "hex")`: stops (truncates) at invalid data. -/
def hexDecode : List Char → List Nat
  | c1 :: c2 :: rest =>
    match hexDigitVal c1, hexDigitVal c2 with
    | some h, some l => (h * 16 + l) :: hexDecode rest
    | _, _ => []
  | _ => []

/-! ## Authentication service (Decorator.ts lines 673-933)

`enum Algorithm { PBKDF2 }` — the only enumerated algorithm; its numeric
value is 0.  Thrown errors are modelled by `AuthErr`: the two error
classes of the source plus the `RangeError` that Node's
`crypto.timingSafeEqual` raises when the two buffers differ in length. -/

inductive Algorithm
  | PBKDF2
deriving DecidableEq

/-- Numeric value of the enumerated algorithm. -/
def algorithmNum : Algorithm → Nat
  | .PBKDF2 => 0

inductive AuthErr
  | invalidAuthString (msg : String)
  | wrongCredentials (msg : String)
  | rangeError (msg : String)
deriving DecidableEq

instance {ε α : Type} [DecidableEq ε] [DecidableEq α] :
    DecidableEq (Except ε α) := fun a b =>
  match a, b with
  | .ok x, .ok y =>
    if h : x = y then isTrue (by rw [h]) else isFalse (by simp [h])
  | .error x, .error y =>
    if h : x = y then isTrue (by rw [h]) else isFalse (by simp [h])
  | .ok _, .error _ => isFalse (by simp)
  | .error _, .ok _ => isFalse (by simp)

structure AuthenticationObject where
  algorithm : Algorithm
  encoding : String
  hash_function : String
  hash_length : Nat
  rounds : Nat
  salt : List Nat
  hash : List Nat
deriving DecidableEq

/-- External Node `Buffer` conversions, indexed by encoding name:
`buf.toString(encoding)` and `Buffer.from(text, encoding)`. -/
structure BufferCodec where
  toStr : String → List Nat → List Char
  fromStr : String → List Char → List Nat

/-- The Node codec instantiated for the hex encoding (the only encoding
the concrete instances below exercise). -/
def hexBuffer : BufferCodec where
  toStr := fun name bs => if name = "hex" then hexEncode bs else []
  fromStr := fun name cs => if name = "hex" then hexDecode cs else []

/-- External `crypto.pbkdf2`: password, salt, rounds, key length, digest
name to derived key bytes. -/
def Kdf : Type := String → List Nat → Nat → Nat → String → List Nat

/-- `parse_authentication_string` after the regex has produced the seven
fields (empty fields make the regex fail, hence the nonemptiness guard). -/
def parse_fields_core (codec : BufferCodec) (encodings : List String)
    (fields : List (List Char)) : Except AuthErr AuthenticationObject :=
  match fields with
  | [f1, f2, f3, f4, f5, f6, f7] =>
    if f1 = [] ∨ f2 = [] ∨ f3 = [] ∨ f4 = [] ∨ f5 = [] ∨ f6 = [] ∨ f7 = [] then
      .error (.invalidAuthString "invalid format")
    else if jsNumberNat f1 = some (algorithmNum Algorithm.PBKDF2) then
      if encodings.contains (String.mk f2) then
        match jsNumberNat f3 with
        | some rounds =>
          if 1 ≤ rounds then
            match jsNumberNat f5 with
            | some hash_length =>
              if 1 ≤ hash_length then
                .ok { algorithm := Algorithm.PBKDF2
                      encoding := String.mk f2
                      hash_function := String.mk f4
                      hash_length := hash_length
                      rounds := rounds
                      salt := codec.fromStr (String.mk f2) f6
                      hash := codec.fromStr (String.mk f2) f7 }
              else .error (.invalidAuthString "invalid hash length")
            | none => .error (.invalidAuthString "invalid hash length")
          else .error (.invalidAuthString "invalid amount of rounds")
        | none => .error (.invalidAuthString "invalid amount of rounds")
      else .error (.invalidAuthString "invalid encoding")
    else .error (.invalidAuthString "invalid algorithm")
  | _ => .error (.invalidAuthString "invalid format")

/-- `parse_authentication_string` (Decorator.ts lines 715-774). -/
def parse_authentication_string (codec : BufferCodec) (encodings : List String)
    (authentication_string : String) : Except AuthErr AuthenticationObject :=
  parse_fields_core codec encodings (splitDollar authentication_string.data)

/-- `authentication_object_to_string` (Decorator.ts lines 776-784). -/
def authentication_object_to_string (codec : BufferCodec)
    (o : AuthenticationObject) : String :=
  String.mk (natToDecimal (algorithmNum o.algorithm) ++ dollarChar ::
    (o.encoding.data ++ dollarChar ::
      (natToDecimal o.rounds ++ dollarChar ::
        (o.hash_function.data ++ dollarChar ::
          (natToDecimal o.hash_length ++ dollarChar ::
            (codec.toStr o.encoding o.salt ++ dollarChar ::
              codec.toStr o.encoding o.hash))))))

/-- Node `crypto.timingSafeEqual`: requires buffers of equal length
(raising a `RangeError` otherwise) and returns their byte-wise equality. -/
def timingSafeEqual (a b : List Nat) : Except AuthErr Bool :=
  if a.length = b.length then .ok (decide (a = b))
  else .error (.rangeError "Input buffers must have the same byte length")

/-- `safe_verify_authentication_string` (Decorator.ts lines 687-708). -/
def safe_verify_authentication_string (codec : BufferCodec) (kdf : Kdf)
    (authentication_string password : String) (encodings : List String) :
    Except AuthErr Bool := do
  let parsed ← parse_authentication_string codec encodings authentication_string
  if parsed.algorithm = Algorithm.PBKDF2 then
    let other_key := kdf password parsed.salt parsed.rounds parsed.hash_length
      parsed.hash_function
    timingSafeEqual parsed.hash other_key
  else
    .error (.invalidAuthString "Unsupported algorithm")

/-- `UserServiceConfig` (Decorator.ts lines 807-815).  The `digest` field
has the TypeScript literal type `"sha512"`; it is kept as a `String` with
that constraint stated where needed. -/
structure UserServiceConfig where
  algorithm : Algorithm
  rounds : Nat
  encodings : List String
  preferred_encoding : String
  salt_length : Nat
  digest : String
  keylen : Nat

/-- `AuthenticationService.create_authentication_string` (Decorator.ts
lines 912-932).  `salt` stands for the result of
`randomBytes(config.salt_length)` and `kdf` for `crypto.pbkdf2`. -/
def create_authentication_string (codec : BufferCodec) (kdf : Kdf)
    (config : UserServiceConfig) (salt : List Nat) (password : String) : String :=
  authentication_object_to_string codec
    { algorithm := config.algorithm
      encoding := config.preferred_encoding
      rounds := config.rounds
      hash_function := config.digest
      hash_length := config.keylen
      salt := salt
      hash := kdf password salt config.rounds config.keylen config.digest }

/-- `AuthenticationService.authenticate` (Decorator.ts lines 878-889),
acting on the session map resolved for the request.  Returns the thrown
error or unit, together with the session map after the call. -/
def authenticate (codec : BufferCodec) (kdf : Kdf) (config : UserServiceConfig)
    (session : SessMap) (user_id : Int) (stored_authentication_string : Option String)
    (password : String) : Except AuthErr Unit × SessMap :=
  match stored_authentication_string with
  | none => (.error (.invalidAuthString "authentication string was null"), session)
  | some s =>
    match safe_verify_authentication_string codec kdf s password config.encodings with
    | .error e => (.error e, session)
    | .ok true => (.ok (), mapSet session "user_id" (toString user_id))
    | .ok false => (.error (.wrongCredentials "Wrong password"), session)

/-! ## Session middleware (Decorator.ts lines 331-416 and 538-608)

The repository carries two versions of `SessionService`.  In the first
(lines 331-416) `get_session` lazily resolves the session into
`ctx.state[data_id] = {key, data, create}` and the middleware calls
`save_state` on both the normal and the error path.  In the second
(lines 538-608) the middleware itself resolves the session into
`ctx.state[data_id]`, but persists `ctx.state.session` and calls
`next()` a second time after saving.

The store behind the middleware is abstract, so persistence is modelled
as a trace of emitted store operations (`StoreOp`); `storeGet` is the
store's response to `get`, `cookie` the request's session-id cookie,
`genId` the value `generate_id()` would return, and `now` the current
time.  The downstream handler receives the exposed session map and
returns the map after its mutations plus whether it threw. -/

structure SessionConfig where
  key : String
  expires : Int

/-- A store operation emitted by the middleware.  `data` is optional
because the second middleware version can pass JS `undefined`. -/
inductive StoreOp
  | get (key : String)
  | set (key : String) (data : Option SessMap)
  | create (key : String) (data : Option SessMap) (expires : Int)
deriving DecidableEq

/-- Result of running the middleware over one request. -/
structure MwOutcome where
  ops : List StoreOp
  handlerThrew : Bool
  nextCalls : Nat
deriving DecidableEq

/-- The record the first `SessionService.get_session` stores in
`ctx.state[data_id]`: `{key: id, data: map, create: bool}`. -/
structure SessionStateV1 where
  key : String
  data : SessMap
  create : Bool
deriving DecidableEq

/-- Resolution step of the first `get_session` (Decorator.ts lines
351-381): read the cookie, query the store on a hit, keep the client id
on a miss, generate a fresh id when there is no cookie. -/
def get_session_resolve (storeGet : String → Option SessMap)
    (cookie : Option String) (genId : String) : SessionStateV1 × List StoreOp :=
  match cookie with
  | none => ({ key := genId, data := [], create := true }, [])
  | some i =>
    match storeGet i with
    | none => ({ key := i, data := [], create := true }, [StoreOp.get i])
    | some d => ({ key := i, data := d, create := false }, [StoreOp.get i])

/-- `SessionService.save_state` (Decorator.ts lines 400-415): nothing if
the session was never resolved; otherwise `create` with expiry
`now + config.expires` if the state's `create` flag is set, else `set`. -/
def save_state (config : SessionConfig) (now : Int) (st : Option SessionStateV1) :
    List StoreOp :=
  match st with
  | none => []
  | some st =>
    if st.create then [StoreOp.create st.key (some st.data) (now + config.expires)]
    else [StoreOp.set st.key (some st.data)]

/-- The first middleware (Decorator.ts lines 383-398) over a request in
which the downstream handler calls `get_session` and mutates the exposed
map: `next()` is wrapped, `save_state` runs on the error path before the
rethrow and on the normal path afterwards. -/
def sessionMiddlewareV1 (config : SessionConfig)
    (storeGet : String → Option SessMap) (cookie : Option String) (genId : String)
    (now : Int) (handler : SessMap → SessMap × Bool) : MwOutcome :=
  let resolved := get_session_resolve storeGet cookie genId
  let run := handler resolved.1.data
  { ops := resolved.2 ++ save_state config now (some { resolved.1 with data := run.1 })
    handlerThrew := run.2
    nextCalls := 1 }

/-- The second middleware (Decorator.ts lines 567-607): resolves the
session into `ctx.state[data_id]`, lets the handler mutate that map, then
persists `ctx.state.session` (a different, normally absent slot) with
`create` on the fresh branch and `set` on the restored branch — on the
error path before the rethrow, on the normal path before a second
`await next()` (counted in `nextCalls`).  `state0` is `ctx.state` at
entry, a map from state keys to session maps. -/
def sessionMiddlewareV2 (config : SessionConfig) (data_id : String)
    (storeGet : String → Option SessMap) (cookie : Option String) (genId : String)
    (now : Int) (handler : SessMap → SessMap × Bool)
    (state0 : List (String × SessMap)) : MwOutcome :=
  let id := cookie.getD genId
  let fetched := match cookie with | some i => storeGet i | none => none
  let gops : List StoreOp := match cookie with | some i => [StoreOp.get i] | none => []
  match fetched with
  | none =>
    let run := handler []
    let st2 := alSet (alSet state0 data_id []) data_id run.1
    { ops := gops ++ [StoreOp.create id (alGet st2 "session") (now + config.expires)]
      handlerThrew := run.2
      nextCalls := if run.2 then 1 else 2 }
  | some d =>
    let run := handler d
    let st2 := alSet (alSet state0 data_id d) data_id run.1
    { ops := gops ++ [StoreOp.set id (alGet st2 "session")]
      handlerThrew := run.2
      nextCalls := if run.2 then 1 else 2 }

/-! ## Service registry (ServiceNetwork.ts)

`ServiceNetwork.create_middleware` walks the registered services in
registration order, skips a service whose `middleware_added` flag is
true, and calls the service's factory with `SN_DATA_` followed by the
post-incremented counter.  The factory invocations are the observable:
the model returns them as `(service name, storage id)` pairs together
with the updated network.  The source never assigns `middleware_added`.
-/

structure ServiceEntry where
  name : String
  middleware_added : Bool
deriving DecidableEq

structure ServiceNetwork where
  last_id : Nat
  services : List ServiceEntry
deriving DecidableEq

/-- `ServiceNetwork.create_middleware` (ServiceNetwork.ts lines 40-52). -/
def ServiceNetwork.create_middleware (sn : ServiceNetwork) :
    ServiceNetwork × List (String × String) :=
  let step : Nat × List (String × String) → ServiceEntry → Nat × List (String × String) :=
    fun acc svc =>
      if svc.middleware_added then acc
      else (acc.1 + 1, acc.2 ++ [(svc.name, "SN_DATA_" ++ String.mk (natToDecimal acc.1))])
  let r := sn.services.foldl step (sn.last_id, [])
  ({ sn with last_id := r.1 }, r.2)

/-! ## Association-list lemmas -/

theorem alGet_alSet_self {β : Type} (l : List (String × β)) (k : String) (v : β) :
    alGet (alSet l k v) k = some v := by
  induction l with
  | nil => simp [alGet, alSet]
  | cons hd tl ih =>
    obtain ⟨k0, w⟩ := hd
    by_cases h : k0 = k <;> simp [alGet, alSet, h, ih]

theorem alGet_alSet_ne {β : Type} (l : List (String × β)) (k j : String) (v : β)
    (h : j ≠ k) : alGet (alSet l k v) j = alGet l j := by
  induction l with
  | nil => simp [alGet, alSet, Ne.symm h]
  | cons hd tl ih =>
    obtain ⟨k0, w⟩ := hd
    by_cases h0 : k0 = k
    · subst h0
      simp [alGet, alSet, Ne.symm h]
    · simp [alGet, alSet, h0, ih]

theorem alGet_alDelete_self {β : Type} (l : List (String × β)) (k : String) :
    alGet (alDelete l k) k = none := by
  induction l with
  | nil => simp [alGet, alDelete]
  | cons hd tl ih =>
    obtain ⟨k0, w⟩ := hd
    by_cases h : k0 = k <;> simp [alGet, alDelete, h, ih]

theorem alGet_alDelete_ne {β : Type} (l : List (String × β)) (k j : String)
    (h : j ≠ k) : alGet (alDelete l k) j = alGet l j := by
  induction l with
  | nil => simp [alGet, alDelete]
  | cons hd tl ih =>
    obtain ⟨k0, w⟩ := hd
    by_cases h0 : k0 = k
    · subst h0
      simp [alGet, alDelete, Ne.symm h, ih]
    · simp [alGet, alDelete, h0, ih]

/-! ## MemoryStore lemmas and claims C8, C9 -/

theorem memoryStore_absent_preserved (s : MemoryStore) (k : String)
    (habs : alGet s.data k = none) (op : MSOp)
    (hop : opCreatesKey op k = false) : alGet (s.run op).data k = none := by
  cases op with
  | get key now =>
    simp only [MemoryStore.run, MemoryStore.get]
    cases hkey : alGet s.data key with
    | none => simpa [hkey] using habs
    | some d =>
      by_cases hexp : d.expires < now
      · by_cases hkk : k = key
        · subst hkk
          simp [hkey] at habs
        · simp [hkey, hexp, alGet_alDelete_ne _ _ _ hkk, habs]
      · simp [hkey, hexp, habs]
  | set key d =>
    simp only [MemoryStore.run, MemoryStore.set]
    cases hkey : alGet s.data key with
    | none => simpa using habs
    | some rec0 =>
      by_cases hkk : k = key
      · subst hkk
        simp [hkey] at habs
      · simp [alGet_alSet_ne _ _ _ _ hkk, habs]
  | create key d expires =>
    simp only [MemoryStore.run, MemoryStore.create]
    have hkk : k ≠ key := by
      intro h
      subst h
      simp [opCreatesKey] at hop
    simp [alGet_alSet_ne _ _ _ _ hkk, habs]

theorem memoryStore_get_absent (s : MemoryStore) (k : String) (t : Int)
    (habs : alGet s.data k = none) : (s.get k t).2 = none := by
  simp [MemoryStore.get, habs]

theorem memoryStore_absent_preserved_run (s : MemoryStore) (k : String)
    (habs : alGet s.data k = none) (ops : List MSOp)
    (hops : ∀ op ∈ ops, opCreatesKey op k = false) :
    alGet (msRun s ops).data k = none := by
  induction ops generalizing s with
  | nil => simpa [msRun] using habs
  | cons op rest ih =>
    have h1 : alGet (s.run op).data k = none :=
      memoryStore_absent_preserved s k habs op (hops op (by simp))
    have h2 : ∀ o ∈ rest, opCreatesKey o k = false := fun o ho => hops o (by simp [ho])
    simpa [msRun] using ih (s.run op) h1 h2

/-- C8: a `MemoryStore.get` on a key whose record's expiry has passed
(strictly earlier than the current time) deletes the record and returns
absent, and every subsequent `get` on that key also returns absent, at
any time, after any further sequence of `get`/`set`/`create` operations
that contains no `create` on that key. -/
theorem memoryStore_expired_get_no_resurrection
    (s : MemoryStore) (k : String) (rec0 : StoreData) (now : Int)
    (hrec : alGet s.data k = some rec0) (hexp : rec0.expires < now) :
    (s.get k now).2 = none ∧
    alGet (s.get k now).1.data k = none ∧
    ∀ ops : List MSOp, (∀ op ∈ ops, opCreatesKey op k = false) →
      ∀ t : Int, ((msRun (s.get k now).1 ops).get k t).2 = none := by
  have hget : s.get k now = (⟨alDelete s.data k⟩, none) := by
    simp [MemoryStore.get, hrec, hexp]
  refine ⟨by simp [hget], ?_, ?_⟩
  · simp [hget, alGet_alDelete_self]
  · intro ops hops t
    have habs : alGet (s.get k now).1.data k = none := by
      simp [hget, alGet_alDelete_self]
    have hrun : alGet (msRun (s.get k now).1 ops).data k = none :=
      memoryStore_absent_preserved_run _ k habs ops hops
    exact memoryStore_get_absent _ k t hrun

/-- Closed instance of `memoryStore_expired_get_no_resurrection`: a store
holding the key `"k"` expired at time 0, read at time 1, stays absent
after a `set` on `"k"` and a `get` on another key. -/
theorem memoryStore_expired_get_no_resurrection_witness :
    ((msRun ((MemoryStore.get ⟨[("k", { expires := 0, data := [] })]⟩ "k" 1).1)
        [MSOp.set "k" [("a", "b")], MSOp.get "q" 5]).get "k" 9).2 = none :=
  (memoryStore_expired_get_no_resurrection
      ⟨[("k", { expires := 0, data := [] })]⟩ "k" { expires := 0, data := [] } 1
      (by decide) (by decide)).2.2
    [MSOp.set "k" [("a", "b")], MSOp.get "q" 5] (by decide) 9

/-- C9: `MemoryStore.set` on an absent key is a no-op that leaves the
store unchanged (and raises no error); on a present key it replaces only
that record's data mapping, keeping the record's expiry and every other
record unchanged. -/
theorem memoryStore_set_frame (s : MemoryStore) (k : String) (d : SessMap) :
    (alGet s.data k = none → s.set k d = s) ∧
    ∀ rec0, alGet s.data k = some rec0 →
      alGet (s.set k d).data k = some { expires := rec0.expires, data := d } ∧
      ∀ j, j ≠ k → alGet (s.set k d).data j = alGet s.data j := by
  constructor
  · intro habs
    simp [MemoryStore.set, habs]
  · intro rec0 hrec
    constructor
    · simp [MemoryStore.set, hrec, alGet_alSet_self]
    · intro j hj
      simp [MemoryStore.set, hrec, alGet_alSet_ne _ _ _ _ hj]

/-- Closed instance of `memoryStore_set_frame`: updating present key `"a"`
replaces its data and keeps its expiry and the other record; updating
absent key `"c"` is a no-op. -/
theorem memoryStore_set_frame_witness :
    alGet ((MemoryStore.set ⟨[("a", { expires := 5, data := [("x", "y")] }),
        ("b", { expires := 7, data := [] })]⟩ "a" [("z", "w")]).data) "a"
      = some { expires := 5, data := [("z", "w")] } ∧
    alGet ((MemoryStore.set ⟨[("a", { expires := 5, data := [("x", "y")] }),
        ("b", { expires := 7, data := [] })]⟩ "a" [("z", "w")]).data) "b"
      = alGet ([("a", { expires := 5, data := [("x", "y")] }),
        ("b", { expires := 7, data := [] })] : List (String × StoreData)) "b" ∧
    MemoryStore.set ⟨[("a", { expires := 5, data := [("x", "y")] })]⟩ "c" []
      = ⟨[("a", { expires := 5, data := [("x", "y")] })]⟩ :=
  ⟨((memoryStore_set_frame ⟨[("a", { expires := 5, data := [("x", "y")] }),
        ("b", { expires := 7, data := [] })]⟩ "a" [("z", "w")]).2
      { expires := 5, data := [("x", "y")] } (by decide)).1,
   ((memoryStore_set_frame ⟨[("a", { expires := 5, data := [("x", "y")] }),
        ("b", { expires := 7, data := [] })]⟩ "a" [("z", "w")]).2
      { expires := 5, data := [("x", "y")] } (by decide)).2 "b" (by decide),
   (memoryStore_set_frame ⟨[("a", { expires := 5, data := [("x", "y")] })]⟩ "c" []).1
      (by decide)⟩

/-! ## Lemmas on splitting, decimal digits and the hex codec -/

theorem splitDollar_ne_nil (l : List Char) : splitDollar l ≠ [] := by
  cases l with
  | nil => simp [splitDollar]
  | cons c rest =>
    simp only [splitDollar]
    by_cases h : c = dollarChar
    · simp [h]
    · simp only [h, if_false]
      cases splitDollar rest <;> simp

theorem splitDollar_no_dollar (l : List Char) (h : dollarChar ∉ l) :
    splitDollar l = [l] := by
  induction l with
  | nil => rfl
  | cons c rest ih =>
    have hc : c ≠ dollarChar := fun hh => h (by simp [hh])
    have hr : dollarChar ∉ rest := fun hh => h (by simp [hh])
    simp [splitDollar, hc, ih hr]

theorem splitDollar_append (a b : List Char) (h : dollarChar ∉ a) :
    splitDollar (a ++ dollarChar :: b) = a :: splitDollar b := by
  induction a with
  | nil => simp [splitDollar]
  | cons c rest ih =>
    have hc : c ≠ dollarChar := fun hh => h (by simp [hh])
    have hr : dollarChar ∉ rest := fun hh => h (by simp [hh])
    simp [splitDollar, hc, ih hr]

theorem natToDecimalFuel_irrel (n : Nat) : ∀ fuel fuel2, n < fuel → n < fuel2 →
    natToDecimalFuel fuel n = natToDecimalFuel fuel2 n := by
  induction n using Nat.strong_induction_on with
  | _ n ih =>
    intro fuel fuel2 h1 h2
    match fuel, fuel2 with
    | f + 1, g + 1 =>
      simp only [natToDecimalFuel]
      by_cases hn : n < 10
      · simp [hn]
      · have hdiv : n / 10 < n := Nat.div_lt_self (by omega) (by omega)
        rw [if_neg hn, if_neg hn, ih _ hdiv f g (by omega) (by omega)]

theorem natToDecimal_eq (n : Nat) :
    natToDecimal n = if n < 10 then [Char.ofNat (48 + n)]
      else natToDecimal (n / 10) ++ [Char.ofNat (48 + n % 10)] := by
  by_cases hn : n < 10
  · simp [natToDecimal, natToDecimalFuel, hn]
  · have hdiv : n / 10 < n := Nat.div_lt_self (by omega) (by omega)
    rw [if_neg hn]
    show natToDecimalFuel (n + 1) n = _
    simp only [natToDecimalFuel, if_neg hn]
    rw [natToDecimalFuel_irrel (n / 10) n (n / 10 + 1) (by omega) (by omega)]
    rfl

theorem digitChar_toNat (d : Nat) (h : d < 10) :
    (Char.ofNat (48 + d)).toNat = 48 + d := by
  revert h
  revert d
  decide

theorem digitChar_isDigit (d : Nat) (h : d < 10) :
    (Char.ofNat (48 + d)).isDigit = true := by
  revert h
  revert d
  decide

theorem digitChar_ne_dollar (d : Nat) (h : d < 10) :
    Char.ofNat (48 + d) ≠ dollarChar := by
  revert h
  revert d
  decide

theorem natToDecimal_ne_nil (n : Nat) : natToDecimal n ≠ [] := by
  rw [natToDecimal_eq]
  split <;> simp

theorem natToDecimal_all_digit (n : Nat) :
    (natToDecimal n).all (fun c => c.isDigit) = true := by
  induction n using Nat.strong_induction_on with
  | _ n ih =>
    rw [natToDecimal_eq]
    split
    · next h => simp [digitChar_isDigit n h]
    · next h =>
      have hlt : n / 10 < n := Nat.div_lt_self (by omega) (by omega)
      have hmod : n % 10 < 10 := Nat.mod_lt _ (by omega)
      simp only [List.all_append]
      simp [ih _ hlt, digitChar_isDigit _ hmod]

theorem natToDecimal_no_dollar (n : Nat) : dollarChar ∉ natToDecimal n := by
  intro hmem
  have hall := natToDecimal_all_digit n
  rw [List.all_eq_true] at hall
  exact absurd (hall _ hmem) (by decide)

theorem digitsVal_append_singleton (l : List Char) (c : Char) :
    digitsVal (l ++ [c]) = 10 * digitsVal l + (c.toNat - 48) := by
  simp [digitsVal, List.foldl_append]
  omega

theorem digitsVal_natToDecimal (n : Nat) : digitsVal (natToDecimal n) = n := by
  induction n using Nat.strong_induction_on with
  | _ n ih =>
    rw [natToDecimal_eq]
    split
    · next h =>
      simp [digitsVal, digitChar_toNat n h]
    · next h =>
      have hlt : n / 10 < n := Nat.div_lt_self (by omega) (by omega)
      have hmod : n % 10 < 10 := Nat.mod_lt _ (by omega)
      rw [digitsVal_append_singleton, ih _ hlt, digitChar_toNat _ hmod]
      omega

theorem jsNumberNat_natToDecimal (n : Nat) :
    jsNumberNat (natToDecimal n) = some n := by
  simp [jsNumberNat, natToDecimal_ne_nil, natToDecimal_all_digit,
    digitsVal_natToDecimal]

theorem hexDigitVal_hexDigitChar (n : Nat) (h : n < 16) :
    hexDigitVal (hexDigitChar n) = some n := by
  revert h
  revert n
  decide

theorem hexDigitChar_ne_dollar (n : Nat) (h : n < 16) :
    hexDigitChar n ≠ dollarChar := by
  revert h
  revert n
  decide

theorem hexDecode_hexEncode (bs : List Nat) (h : ∀ b ∈ bs, b < 256) :
    hexDecode (hexEncode bs) = bs := by
  induction bs with
  | nil => rfl
  | cons b rest ih =>
    have hb : b < 256 := h b (by simp)
    have h1 : b / 16 < 16 := by omega
    have h2 : b % 16 < 16 := Nat.mod_lt _ (by omega)
    have hrest : ∀ x ∈ rest, x < 256 := fun x hx => h x (by simp [hx])
    simp [hexEncode, hexDecode, hexDigitVal_hexDigitChar _ h1,
      hexDigitVal_hexDigitChar _ h2, ih hrest]
    omega

theorem hexEncode_ne_nil (bs : List Nat) (h : bs ≠ []) : hexEncode bs ≠ [] := by
  cases bs with
  | nil => simp at h
  | cons b rest => simp [hexEncode]

theorem hexEncode_no_dollar (bs : List Nat) (h : ∀ b ∈ bs, b < 256) :
    dollarChar ∉ hexEncode bs := by
  induction bs with
  | nil => simp [hexEncode]
  | cons b rest ih =>
    have hb : b < 256 := h b (by simp)
    have h1 : b / 16 < 16 := by omega
    have h2 : b % 16 < 16 := Nat.mod_lt _ (by omega)
    have hrest : ∀ x ∈ rest, x < 256 := fun x hx => h x (by simp [hx])
    simp only [hexEncode, List.mem_cons]
    push_neg
    exact ⟨fun hh => absurd hh.symm (hexDigitChar_ne_dollar _ h1),
      fun hh => absurd hh.symm (hexDigitChar_ne_dollar _ h2),
      fun hmem => ih hrest hmem⟩

/-! ## Round-trip of the credential-string encoding -/

theorem parse_encode_roundtrip (codec : BufferCodec) (encodings : List String)
    (o : AuthenticationObject)
    (henc : encodings.contains o.encoding = true)
    (hr : 1 ≤ o.rounds) (hl : 1 ≤ o.hash_length)
    (hencD : dollarChar ∉ o.encoding.data) (hencN : o.encoding.data ≠ [])
    (hfD : dollarChar ∉ o.hash_function.data) (hfN : o.hash_function.data ≠ [])
    (hsD : dollarChar ∉ codec.toStr o.encoding o.salt)
    (hsN : codec.toStr o.encoding o.salt ≠ [])
    (hhD : dollarChar ∉ codec.toStr o.encoding o.hash)
    (hhN : codec.toStr o.encoding o.hash ≠ [])
    (hsRT : codec.fromStr o.encoding (codec.toStr o.encoding o.salt) = o.salt)
    (hhRT : codec.fromStr o.encoding (codec.toStr o.encoding o.hash) = o.hash) :
    parse_authentication_string codec encodings
      (authentication_object_to_string codec o) = .ok o := by
  have hsplit : splitDollar (authentication_object_to_string codec o).data =
      [natToDecimal (algorithmNum o.algorithm), o.encoding.data,
       natToDecimal o.rounds, o.hash_function.data, natToDecimal o.hash_length,
       codec.toStr o.encoding o.salt, codec.toStr o.encoding o.hash] := by
    show splitDollar (natToDecimal (algorithmNum o.algorithm) ++ dollarChar :: _) = _
    rw [splitDollar_append _ _ (natToDecimal_no_dollar _),
        splitDollar_append _ _ hencD,
        splitDollar_append _ _ (natToDecimal_no_dollar _),
        splitDollar_append _ _ hfD,
        splitDollar_append _ _ (natToDecimal_no_dollar _),
        splitDollar_append _ _ hsD,
        splitDollar_no_dollar _ hhD]
  rw [parse_authentication_string, hsplit]
  have halg : algorithmNum o.algorithm = 0 := by cases o.algorithm with | PBKDF2 => rfl
  have heta : String.mk o.encoding.data = o.encoding := rfl
  have hfeta : String.mk o.hash_function.data = o.hash_function := rfl
  simp only [parse_fields_core, halg, algorithmNum, heta, hfeta,
    jsNumberNat_natToDecimal, henc, natToDecimal_ne_nil, hencN, hfN, hsN, hhN,
    hsRT, hhRT, false_or, or_self, if_false, if_true, hr, hl]

/-! ## Claim C5: decoding inverts encoding -/

/-- C5 counterexample: an authentication object with supported algorithm,
whitelisted encoding, positive rounds and positive hash length, but an
empty salt.  Its encoding has an empty sixth field, which the parsing
regex rejects, so decoding does not reproduce the object. -/
theorem credential_roundtrip_empty_salt_cex :
    parse_authentication_string hexBuffer ["hex"]
      (authentication_object_to_string hexBuffer
        { algorithm := Algorithm.PBKDF2, encoding := "hex",
          hash_function := "sha512", hash_length := 1, rounds := 1,
          salt := [], hash := [0] })
      = .error (.invalidAuthString "invalid format") := by decide

/-- C5 (amended): parsing inverts encoding for every authentication
object whose fields are format-compatible — supported algorithm,
whitelisted encoding, positive rounds and hash length, and whose
encoding name, digest name and encoded salt/hash fields are nonempty and
free of the dollar delimiter, under an encoding that round-trips the
salt and hash bytes. -/
theorem credential_string_roundtrip (codec : BufferCodec)
    (encodings : List String) (o : AuthenticationObject)
    (henc : encodings.contains o.encoding = true)
    (hr : 1 ≤ o.rounds) (hl : 1 ≤ o.hash_length)
    (hencD : dollarChar ∉ o.encoding.data) (hencN : o.encoding.data ≠ [])
    (hfD : dollarChar ∉ o.hash_function.data) (hfN : o.hash_function.data ≠ [])
    (hsD : dollarChar ∉ codec.toStr o.encoding o.salt)
    (hsN : codec.toStr o.encoding o.salt ≠ [])
    (hhD : dollarChar ∉ codec.toStr o.encoding o.hash)
    (hhN : codec.toStr o.encoding o.hash ≠ [])
    (hsRT : codec.fromStr o.encoding (codec.toStr o.encoding o.salt) = o.salt)
    (hhRT : codec.fromStr o.encoding (codec.toStr o.encoding o.hash) = o.hash) :
    parse_authentication_string codec encodings
      (authentication_object_to_string codec o) = .ok o :=
  parse_encode_roundtrip codec encodings o henc hr hl hencD hencN hfD hfN
    hsD hsN hhD hhN hsRT hhRT

/-- Closed instance of `credential_string_roundtrip` at a concrete
object over the hex codec. -/
theorem credential_string_roundtrip_witness :
    parse_authentication_string hexBuffer ["hex"]
      (authentication_object_to_string hexBuffer
        { algorithm := Algorithm.PBKDF2, encoding := "hex",
          hash_function := "sha512", hash_length := 2, rounds := 3,
          salt := [1, 2], hash := [3, 4] })
      = .ok { algorithm := Algorithm.PBKDF2, encoding := "hex",
              hash_function := "sha512", hash_length := 2, rounds := 3,
              salt := [1, 2], hash := [3, 4] } :=
  credential_string_roundtrip hexBuffer ["hex"]
    { algorithm := Algorithm.PBKDF2, encoding := "hex",
      hash_function := "sha512", hash_length := 2, rounds := 3,
      salt := [1, 2], hash := [3, 4] }
    (by decide) (by decide) (by decide) (by decide) (by decide) (by decide)
    (by decide) (by decide) (by decide) (by decide) (by decide) (by decide)
    (by decide)

/-! ## Claim C3: verify after create -/

/-- C3 counterexample: a configuration with whitelisted preferred
encoding, positive rounds and key length and a supported algorithm, but
`salt_length = 0`.  `randomBytes(0)` is the empty buffer, the encoded
salt field is empty, the parsing regex rejects the produced string, and
verification throws `InvalidAuthenticationString` instead of returning
true. -/
theorem verify_create_salt_zero_cex :
    safe_verify_authentication_string hexBuffer
      (fun _ _ _ l _ => List.replicate l 5)
      (create_authentication_string hexBuffer
        (fun _ _ _ l _ => List.replicate l 5)
        { algorithm := Algorithm.PBKDF2, rounds := 1, encodings := ["hex"],
          preferred_encoding := "hex", salt_length := 0, digest := "sha512",
          keylen := 1 } [] "pw") "pw" ["hex"]
      = .error (.invalidAuthString "invalid format") := by decide

/-- C3 (amended): for every password, verifying the credential string
produced for it returns true, under a configuration with the preferred
encoding in the whitelist, positive rounds, key length and salt length,
digest `"sha512"` (the literal type of the config field), and an encoding
that is dollar-free, nonempty on nonempty input and round-trips the salt
and derived-key bytes. -/
theorem verify_create_authentication_string (codec : BufferCodec) (kdf : Kdf)
    (config : UserServiceConfig) (salt : List Nat) (password : String)
    (hsl : salt.length = config.salt_length) (hsp : 1 ≤ config.salt_length)
    (henc : config.encodings.contains config.preferred_encoding = true)
    (hr : 1 ≤ config.rounds) (hk : 1 ≤ config.keylen)
    (hdig : config.digest = "sha512")
    (hencD : dollarChar ∉ config.preferred_encoding.data)
    (hencN : config.preferred_encoding.data ≠ [])
    (hsD : dollarChar ∉ codec.toStr config.preferred_encoding salt)
    (hsN : codec.toStr config.preferred_encoding salt ≠ [])
    (hhD : dollarChar ∉ codec.toStr config.preferred_encoding
      (kdf password salt config.rounds config.keylen config.digest))
    (hhN : codec.toStr config.preferred_encoding
      (kdf password salt config.rounds config.keylen config.digest) ≠ [])
    (hsRT : codec.fromStr config.preferred_encoding
      (codec.toStr config.preferred_encoding salt) = salt)
    (hhRT : codec.fromStr config.preferred_encoding
      (codec.toStr config.preferred_encoding
        (kdf password salt config.rounds config.keylen config.digest))
      = kdf password salt config.rounds config.keylen config.digest) :
    safe_verify_authentication_string codec kdf
      (create_authentication_string codec kdf config salt password) password
      config.encodings = .ok true := by
  have hfD : dollarChar ∉ config.digest.data := by rw [hdig]; decide
  have hfN : config.digest.data ≠ [] := by rw [hdig]; decide
  have hparse : parse_authentication_string codec config.encodings
      (create_authentication_string codec kdf config salt password) =
      .ok { algorithm := config.algorithm
            encoding := config.preferred_encoding
            rounds := config.rounds
            hash_function := config.digest
            hash_length := config.keylen
            salt := salt
            hash := kdf password salt config.rounds config.keylen config.digest } :=
    parse_encode_roundtrip codec config.encodings _ henc hr hk hencD hencN
      hfD hfN hsD hsN hhD hhN hsRT hhRT
  have hPB : config.algorithm = Algorithm.PBKDF2 := by
    cases config.algorithm with | PBKDF2 => rfl
  simp [safe_verify_authentication_string, hparse, hPB, timingSafeEqual,
    Bind.bind, Except.bind]

/-- Closed instance of `verify_create_authentication_string` over the hex
codec with a concrete key-derivation function and configuration. -/
theorem verify_create_authentication_string_witness :
    safe_verify_authentication_string hexBuffer
      (fun _ _ _ l _ => List.replicate l 5)
      (create_authentication_string hexBuffer
        (fun _ _ _ l _ => List.replicate l 5)
        { algorithm := Algorithm.PBKDF2, rounds := 2, encodings := ["hex"],
          preferred_encoding := "hex", salt_length := 2, digest := "sha512",
          keylen := 3 } [1, 2] "pw") "pw" ["hex"]
      = .ok true :=
  verify_create_authentication_string hexBuffer
    (fun _ _ _ l _ => List.replicate l 5)
    { algorithm := Algorithm.PBKDF2, rounds := 2, encodings := ["hex"],
      preferred_encoding := "hex", salt_length := 2, digest := "sha512",
      keylen := 3 } [1, 2] "pw"
    (by decide) (by decide) (by decide) (by decide) (by decide) (by decide)
    (by decide) (by decide) (by decide) (by decide) (by decide) (by decide)
    (by decide) (by decide)

/-! ## Claim C4: malformed credential strings -/

/-- C10: the credential string `0$hex$1$sha512$2$aa$bb` is structurally
valid — seven nonempty fields, supported algorithm id 0, whitelisted
encoding, positive rounds and declared hash length — yet its decoded
hash has one byte while the declared hash length is two.  The parser
never compares the two, the derived key has the declared length, and
`timingSafeEqual` then raises a `RangeError`: for every password,
verification throws an error that is neither
`InvalidAuthenticationString` nor `WrongCredentialsError` instead of
returning false. -/
theorem hash_length_mismatch_range_error (kdf : Kdf) (password : String)
    (hk : ∀ pw s r l d, (kdf pw s r l d).length = l) :
    (∃ o, parse_authentication_string hexBuffer ["hex"] "0$hex$1$sha512$2$aa$bb"
        = .ok o ∧ o.hash.length ≠ o.hash_length) ∧
    safe_verify_authentication_string hexBuffer kdf "0$hex$1$sha512$2$aa$bb"
      password ["hex"]
      = .error (.rangeError "Input buffers must have the same byte length") := by
  have hparse : parse_authentication_string hexBuffer ["hex"] "0$hex$1$sha512$2$aa$bb"
      = .ok { algorithm := Algorithm.PBKDF2, encoding := "hex",
              hash_function := "sha512", hash_length := 2, rounds := 1,
              salt := [170], hash := [187] } := by decide
  refine ⟨⟨_, hparse, by decide⟩, ?_⟩
  have hlen := hk password [170] 1 2 "sha512"
  simp [safe_verify_authentication_string, hparse, Bind.bind, Except.bind,
    timingSafeEqual, hlen]

/-- Closed instance of `hash_length_mismatch_range_error` with a concrete
key-derivation function of the correct output length. -/
theorem hash_length_mismatch_range_error_witness :
    safe_verify_authentication_string hexBuffer
      (fun _ _ _ l _ => List.replicate l 0) "0$hex$1$sha512$2$aa$bb" "pw" ["hex"]
      = .error (.rangeError "Input buffers must have the same byte length") :=
  (hash_length_mismatch_range_error (fun _ _ _ l _ => List.replicate l 0) "pw"
    (fun _ _ _ _ _ => by simp)).2

/-! ## Claim C7: authenticate's effect on the session -/

/-- C7: `authenticate` leaves the session map unchanged whenever it
fails (in particular with `InvalidAuthenticationString` for an
absent/null stored credential string and with `WrongCredentialsError`
when verification returns false), and on success its only effect is to
bind `"user_id"` to the decimal string form of `user_id`, every other
key keeping its value. -/
theorem authenticate_session_frame (codec : BufferCodec) (kdf : Kdf)
    (config : UserServiceConfig) (session : SessMap) (user_id : Int)
    (stored : Option String) (password : String) :
    (∀ e, (authenticate codec kdf config session user_id stored password).1
        = .error e →
      (authenticate codec kdf config session user_id stored password).2
        = session) ∧
    ((authenticate codec kdf config session user_id stored password).1 = .ok () →
      mapGet (authenticate codec kdf config session user_id stored password).2
          "user_id" = some (toString user_id) ∧
      ∀ k, k ≠ "user_id" →
        mapGet (authenticate codec kdf config session user_id stored password).2 k
          = mapGet session k) ∧
    (stored = none →
      (authenticate codec kdf config session user_id stored password).1
        = .error (.invalidAuthString "authentication string was null")) ∧
    (∀ s, stored = some s →
      safe_verify_authentication_string codec kdf s password config.encodings
        = .ok false →
      (authenticate codec kdf config session user_id stored password).1
        = .error (.wrongCredentials "Wrong password")) := by
  cases stored with
  | none =>
    refine ⟨fun e _ => rfl, fun hok => ?_, fun _ => rfl, fun s hs => by simp at hs⟩
    simp [authenticate] at hok
  | some s =>
    cases hv : safe_verify_authentication_string codec kdf s password
        config.encodings with
    | error e =>
      refine ⟨fun e2 _ => by simp [authenticate, hv], fun hok => ?_,
        fun hn => by simp at hn, fun s2 hs2 hv2 => ?_⟩
      · simp [authenticate, hv] at hok
      · obtain rfl : s2 = s := by simpa using hs2.symm
        rw [hv] at hv2
        simp at hv2
    | ok b =>
      cases b with
      | true =>
        refine ⟨fun e he => ?_, fun _ => ?_, fun hn => by simp at hn,
          fun s2 hs2 hv2 => ?_⟩
        · simp [authenticate, hv] at he
        · exact ⟨by simp [authenticate, hv, alGet_alSet_self],
            fun k hk => by simp [authenticate, hv, alGet_alSet_ne _ _ _ _ hk]⟩
        · obtain rfl : s2 = s := by simpa using hs2.symm
          rw [hv] at hv2
          simp at hv2
      | false =>
        refine ⟨fun e _ => by simp [authenticate, hv], fun hok => ?_,
          fun hn => by simp at hn, fun s2 hs2 hv2 => by simp [authenticate, hv]⟩
        simp [authenticate, hv] at hok

/-- Closed instance of `authenticate_session_frame`: the null-credential
failure leaves the session unchanged, and a successful authentication
binds `"user_id"` and keeps the other key. -/
theorem authenticate_session_frame_witness :
    (authenticate hexBuffer (fun _ _ _ l _ => List.replicate l 5)
      { algorithm := Algorithm.PBKDF2, rounds := 2, encodings := ["hex"],
        preferred_encoding := "hex", salt_length := 2, digest := "sha512",
        keylen := 3 } [("x", "y")] 7 none "pw").1
      = .error (.invalidAuthString "authentication string was null") ∧
    mapGet (authenticate hexBuffer (fun _ _ _ l _ => List.replicate l 5)
      { algorithm := Algorithm.PBKDF2, rounds := 2, encodings := ["hex"],
        preferred_encoding := "hex", salt_length := 2, digest := "sha512",
        keylen := 3 } [("x", "y")] 7
      (some "0$hex$2$sha512$3$0102$050505") "pw").2 "user_id"
      = some (toString (7 : Int)) ∧
    mapGet (authenticate hexBuffer (fun _ _ _ l _ => List.replicate l 5)
      { algorithm := Algorithm.PBKDF2, rounds := 2, encodings := ["hex"],
        preferred_encoding := "hex", salt_length := 2, digest := "sha512",
        keylen := 3 } [("x", "y")] 7
      (some "0$hex$2$sha512$3$0102$050505") "pw").2 "x"
      = mapGet [("x", "y")] "x" :=
  ⟨(authenticate_session_frame hexBuffer (fun _ _ _ l _ => List.replicate l 5)
      { algorithm := Algorithm.PBKDF2, rounds := 2, encodings := ["hex"],
        preferred_encoding := "hex", salt_length := 2, digest := "sha512",
        keylen := 3 } [("x", "y")] 7 none "pw").2.2.1 rfl,
   ((authenticate_session_frame hexBuffer (fun _ _ _ l _ => List.replicate l 5)
      { algorithm := Algorithm.PBKDF2, rounds := 2, encodings := ["hex"],
        preferred_encoding := "hex", salt_length := 2, digest := "sha512",
        keylen := 3 } [("x", "y")] 7
      (some "0$hex$2$sha512$3$0102$050505") "pw").2.1 (by decide)).1,
   ((authenticate_session_frame hexBuffer (fun _ _ _ l _ => List.replicate l 5)
      { algorithm := Algorithm.PBKDF2, rounds := 2, encodings := ["hex"],
        preferred_encoding := "hex", salt_length := 2, digest := "sha512",
        keylen := 3 } [("x", "y")] 7
      (some "0$hex$2$sha512$3$0102$050505") "pw").2.1 (by decide)).2 "x"
      (by decide)⟩

/-! ## Claim C1: save-on-exit of the session middleware -/

/-- The save-on-exit path of the first `SessionService` (`save_state`,
Decorator.ts lines 383-415): the middleware emits exactly one
persistence operation after the store read, it carries the
handler-mutated exposed map, and it is a `create` with expiry
`now + config.expires` exactly when the session was fresh, a `set` when
it was restored; the handler's error outcome is propagated. -/
theorem sessionMiddlewareV1_save_on_exit (config : SessionConfig)
    (storeGet : String → Option SessMap) (cookie : Option String) (genId : String)
    (now : Int) (handler : SessMap → SessMap × Bool) :
    ∃ op, (sessionMiddlewareV1 config storeGet cookie genId now handler).ops
        = (get_session_resolve storeGet cookie genId).2 ++ [op] ∧
      ((get_session_resolve storeGet cookie genId).1.create = true →
        op = StoreOp.create (get_session_resolve storeGet cookie genId).1.key
          (some (handler (get_session_resolve storeGet cookie genId).1.data).1)
          (now + config.expires)) ∧
      ((get_session_resolve storeGet cookie genId).1.create = false →
        op = StoreOp.set (get_session_resolve storeGet cookie genId).1.key
          (some (handler (get_session_resolve storeGet cookie genId).1.data).1)) ∧
      (sessionMiddlewareV1 config storeGet cookie genId now handler).handlerThrew
        = (handler (get_session_resolve storeGet cookie genId).1.data).2 := by
  by_cases hc : (get_session_resolve storeGet cookie genId).1.create = true
  · refine ⟨StoreOp.create (get_session_resolve storeGet cookie genId).1.key
      (some (handler (get_session_resolve storeGet cookie genId).1.data).1)
      (now + config.expires), ?_, ?_, ?_, ?_⟩
    · simp [sessionMiddlewareV1, save_state, hc]
    · intro _
      rfl
    · intro hf
      simp [hc] at hf
    · rfl
  · rw [Bool.not_eq_true] at hc
    refine ⟨StoreOp.set (get_session_resolve storeGet cookie genId).1.key
      (some (handler (get_session_resolve storeGet cookie genId).1.data).1),
      ?_, ?_, ?_, ?_⟩
    · simp [sessionMiddlewareV1, save_state, hc]
    · intro ht
      simp [hc] at ht
    · intro _
      rfl
    · rfl

/-- C1 (code evaluation at the failing input): in the second
`SessionService`, a cookie-less request whose handler writes `a → b`
into the exposed session map ends with a single `create` that persists
`ctx.state.session` — which is absent (`none`, JS `undefined`) — instead
of the mutated map, and with `next()` invoked twice. -/
theorem sessionMiddlewareV2_persists_wrong_slot :
    sessionMiddlewareV2 { key := "sid", expires := 1000 } "SN_DATA_0"
      (fun _ => none) none "abc" 0 (fun m => (mapSet m "a" "b", false)) []
      = { ops := [StoreOp.create "abc" none 1000], handlerThrew := false,
          nextCalls := 2 } ∧
    (fun m => (mapSet m "a" "b", false) : SessMap → SessMap × Bool) []
      = ([("a", "b")], false) := by
  constructor <;> decide

/-! ## Claim C2: middleware collection is not idempotent -/

/-- C2 (code evaluation): `ServiceNetwork.create_middleware` never sets
`middleware_added`; with one registered service the first call invokes
the factory with `SN_DATA_0`, the flag is still false afterwards, and a
second call invokes the factory again with `SN_DATA_1`. -/
theorem serviceNetwork_create_middleware_twice :
    (ServiceNetwork.create_middleware
      { last_id := 0,
        services := [{ name := "SessionService", middleware_added := false }] }).2
      = [("SessionService", "SN_DATA_0")] ∧
    (ServiceNetwork.create_middleware
      { last_id := 0,
        services := [{ name := "SessionService", middleware_added := false }] }).1.services
      = [{ name := "SessionService", middleware_added := false }] ∧
    ((ServiceNetwork.create_middleware
      { last_id := 0,
        services := [{ name := "SessionService",
                       middleware_added := false }] }).1.create_middleware).2
      = [("SessionService", "SN_DATA_1")] := by
  refine ⟨?_, ?_, ?_⟩ <;> decide

end KoaBlocks
